import Mathlib

/-!
Shallow embedding of the IncognitoChat WebSocket server
(the server half of `src/src/App.tsx`, lines 386-606).

The server keeps two JS `Map`s:
  `users : Map<WebSocket, User>` (each `User` records the socket's room id) and
  `rooms : Map<string, Set<WebSocket>>`,
with `MAX_USERS_PER_ROOM = 2`.  Sockets are modelled as natural numbers,
JS `Map`s as association lists with overwrite-on-set semantics, and JS
`Set`s as duplicate-free lists in insertion order.  A `send` to a socket
is recorded as a pair `(recipient, envelope)`; the server only sends to
sockets whose `readyState` is `OPEN`, modelled by an `isOpen` predicate.

A handler that performs an unguarded JS property access on a missing
object (which throws a `TypeError` at runtime) is modelled as
`Except.error ()`.
-/

namespace IncognitoChat

/-- A live client socket handle (JS `WebSocket` identity). -/
abbrev Conn := Nat

/-- A room identifier (a short numeric string such as `"4821"`). -/
abbrev RoomId := String

/-- `MAX_USERS_PER_ROOM = 2` from the server source. -/
def MAX_USERS_PER_ROOM : Nat := 2

/-- JS `Map.get`: first (unique) binding of the key, if any. -/
def mapGet {α β : Type} [DecidableEq α] (m : List (α × β)) (k : α) : Option β :=
  match m with
  | [] => none
  | (k', v) :: rest => if k = k' then some v else mapGet rest k

/-- JS `Map.set`: overwrite the binding of `k` if present, else append it. -/
def mapSet {α β : Type} [DecidableEq α] (m : List (α × β)) (k : α) (v : β) :
    List (α × β) :=
  match m with
  | [] => [(k, v)]
  | (k', v') :: rest =>
    if k = k' then (k, v) :: rest else (k', v') :: mapSet rest k v

/-- JS `Map.delete`: remove the binding of `k` (the first, which is the only
one when keys are duplicate-free). -/
def mapDel {α β : Type} [DecidableEq α] (m : List (α × β)) (k : α) :
    List (α × β) :=
  match m with
  | [] => []
  | (k', v') :: rest => if k = k' then rest else (k', v') :: mapDel rest k

/-- JS `Set.add`: append the element if absent (insertion order preserved). -/
def setAdd (s : List Conn) (c : Conn) : List Conn :=
  if c ∈ s then s else s ++ [c]

/-- JS `Set.delete`: remove the element. -/
def setDel (s : List Conn) (c : Conn) : List Conn :=
  s.filter (fun x => x ≠ c)

/-- The server state: the connection registry `users` (socket → room id,
the `room` field of the stored `User`) and the room table `rooms`
(room id → member set). -/
structure ServerState where
  users : List (Conn × RoomId)
  rooms : List (RoomId × List Conn)
deriving DecidableEq, Repr

/-- The JS object destructured from `message.payload` (fields may be
absent, i.e. `undefined`). -/
structure Payload where
  room : Option String
  id : Option String
  text : Option String
  typing : Bool
deriving DecidableEq, Repr

/-- `{}`: the empty payload object (`message.payload || {}`). -/
def Payload.empty : Payload := ⟨none, none, none, false⟩

/-- JS string truthiness: `!s` is false exactly for a present, non-empty
string. -/
def truthy (s : Option String) : Bool :=
  match s with
  | none => false
  | some str => str ≠ ""

/-- The result of `JSON.parse` on inbound socket data:
`malformed` when `JSON.parse` throws (caught by the handler),
`nullVal` when the data is the literal `null` (so `message.type` throws),
`obj type payload` for any other parsed value (`type` is `none` when the
`type` property is absent or not one the handler compares against). -/
inductive ClientMsg where
  | malformed
  | nullVal
  | obj (type : Option String) (payload : Option Payload)
deriving DecidableEq, Repr

/-- A server-originated wire envelope (the argument of `socket.send`). -/
inductive Envelope where
  | roomCreated (room : RoomId)
  | joined (room : RoomId)
  | userCount (count : Nat) (max : Nat)
  | errorMsg (message : String)
  | typingMsg (typing : Bool)
  | chatMsg (id : String) (message : String)
  | delivered (id : String)
  | seen (id : String)
deriving DecidableEq, Repr

/-- A list of performed sends, in order: `(recipient, envelope)`. -/
abbrev Sends := List (Conn × Envelope)

/-- `roomSockets.forEach(client => if client !== socket && OPEN, send env)`:
the exclude-sender broadcast used by `typing` and `message`. -/
def roomBroadcastExceptSender (isOpen : Conn → Bool) (roomSockets : List Conn)
    (socket : Conn) (env : Envelope) : Sends :=
  (roomSockets.filter (fun cl => if cl = socket then false else isOpen cl)).map
    (fun cl => (cl, env))

/-- `roomSockets.forEach(client => if OPEN, send env)`: the broadcast to all
members used by `seen` and `broadcastUserCount`. -/
def roomBroadcastAll (isOpen : Conn → Bool) (roomSockets : List Conn)
    (env : Envelope) : Sends :=
  (roomSockets.filter isOpen).map (fun cl => (cl, env))

/-- `broadcastUserCount(roomId)`: look the room up; if present, send
`user-count{count: size, max: MAX_USERS_PER_ROOM}` to its open members. -/
def broadcastUserCount (isOpen : Conn → Bool)
    (rooms : List (RoomId × List Conn)) (roomId : RoomId) : Sends :=
  match mapGet rooms roomId with
  | none => []
  | some roomSockets =>
    roomBroadcastAll isOpen roomSockets
      (Envelope.userCount roomSockets.length MAX_USERS_PER_ROOM)

/-- The `create-room` branch: dropped if the socket is already registered;
otherwise register the socket under the fresh id, create the room with the
socket as sole member, send `room-created` then broadcast `user-count`. -/
def handleCreateRoom (isOpen : Conn → Bool) (st : ServerState) (socket : Conn)
    (freshId : RoomId) : ServerState × Sends :=
  if (mapGet st.users socket).isSome then (st, [])
  else
    let st' : ServerState :=
      ⟨mapSet st.users socket freshId, mapSet st.rooms freshId [socket]⟩
    (st', (socket, Envelope.roomCreated freshId) ::
      broadcastUserCount isOpen st'.rooms freshId)

/-- The `join-room` branch: `const { room } = message.payload || {}`;
`!room || !rooms.has(room)` yields `error "Room does not exist"`;
a room at `MAX_USERS_PER_ROOM` yields `error "Room is full"`; otherwise
the socket is registered to the room, added to its member set, sent
`joined`, and `user-count` is broadcast.  (No check that the socket is
already assigned elsewhere.) -/
def handleJoinRoom (isOpen : Conn → Bool) (st : ServerState) (socket : Conn)
    (payload : Option Payload) : ServerState × Sends :=
  match (payload.getD Payload.empty).room with
  | none => (st, [(socket, Envelope.errorMsg "Room does not exist")])
  | some room =>
    if room = "" then (st, [(socket, Envelope.errorMsg "Room does not exist")])
    else
      match mapGet st.rooms room with
      | none => (st, [(socket, Envelope.errorMsg "Room does not exist")])
      | some roomSockets =>
        if MAX_USERS_PER_ROOM ≤ roomSockets.length then
          (st, [(socket, Envelope.errorMsg "Room is full")])
        else
          let roomSockets' := setAdd roomSockets socket
          let st' : ServerState :=
            ⟨mapSet st.users socket room, mapSet st.rooms room roomSockets'⟩
          (st', (socket, Envelope.joined room) ::
            broadcastUserCount isOpen st'.rooms room)

/-- The whole `socket.on("message", ...)` handler.  `freshId` stands for the
value `createUniqueRoomId()` would return (only consulted by the
`create-room` branch).  `Except.error ()` models an uncaught JS
`TypeError`: thrown by `message.type` when the parsed data is `null`, and
by `message.payload.typing` when a `typing` event carries no payload. -/
def handleMessage (isOpen : Conn → Bool) (st : ServerState) (socket : Conn)
    (freshId : RoomId) (msg : ClientMsg) : Except Unit (ServerState × Sends) :=
  match msg with
  | ClientMsg.malformed =>
    Except.ok (st, [(socket, Envelope.errorMsg "Invalid JSON format")])
  | ClientMsg.nullVal => Except.error ()
  | ClientMsg.obj ty payload =>
    if ty = some "create-room" then
      Except.ok (handleCreateRoom isOpen st socket freshId)
    else if ty = some "join-room" then
      Except.ok (handleJoinRoom isOpen st socket payload)
    else
      match mapGet st.users socket with
      | none => Except.ok (st, [])
      | some userRoom =>
        match mapGet st.rooms userRoom with
        | none => Except.ok (st, [])
        | some roomSockets =>
          if ty = some "typing" then
            match payload with
            | none => Except.error ()
            | some p =>
              Except.ok (st, roomBroadcastExceptSender isOpen roomSockets socket
                (Envelope.typingMsg p.typing))
          else if ty = some "message" then
            if truthy (payload.getD Payload.empty).id = false ∨
                truthy (payload.getD Payload.empty).text = false then
              Except.ok (st, [])
            else
              Except.ok (st,
                roomBroadcastExceptSender isOpen roomSockets socket
                  (Envelope.chatMsg ((payload.getD Payload.empty).id.getD "")
                    ((payload.getD Payload.empty).text.getD "")) ++
                [(socket,
                  Envelope.delivered ((payload.getD Payload.empty).id.getD ""))])
          else if ty = some "seen" then
            if truthy (payload.getD Payload.empty).id = false then
              Except.ok (st, [])
            else
              Except.ok (st, roomBroadcastAll isOpen roomSockets
                (Envelope.seen ((payload.getD Payload.empty).id.getD "")))
          else Except.ok (st, [])

/-- The `socket.on("close", ...)` handler: if the socket is registered,
delete it from its room's member set; delete the room if the set emptied,
otherwise broadcast `user-count`; delete the registry entry. -/
def handleClose (isOpen : Conn → Bool) (st : ServerState) (socket : Conn) :
    ServerState × Sends :=
  match mapGet st.users socket with
  | none => (st, [])
  | some userRoom =>
    match mapGet st.rooms userRoom with
    | none => (⟨mapDel st.users socket, st.rooms⟩, [])
    | some roomSockets =>
      let roomSockets' := setDel roomSockets socket
      if roomSockets'.length = 0 then
        (⟨mapDel st.users socket, mapDel st.rooms userRoom⟩, [])
      else
        let rooms' := mapSet st.rooms userRoom roomSockets'
        (⟨mapDel st.users socket, rooms'⟩,
          broadcastUserCount isOpen rooms' userRoom)

/-- `createUniqueRoomId()`: the regenerate-until-unused loop, with the
random generator abstracted as a stream `gen` of candidates and an explicit
fuel bound (the JS `do … while` has none). -/
def createUniqueRoomId (gen : Nat → RoomId)
    (rooms : List (RoomId × List Conn)) : Nat → Nat → Option RoomId
  | 0, _ => none
  | fuel + 1, k =>
    if (mapGet rooms (gen k)).isSome then createUniqueRoomId gen rooms fuel (k + 1)
    else some (gen k)

/-! ## Trace semantics

A world pairs the server state with the set of sockets whose close event
has fired.  An event is either inbound data from a still-open socket or a
socket close.  `freshId` on a `recv` event records the id
`createUniqueRoomId` would produce, so it is required to be unused. -/

/-- An externally triggered event at the server. -/
inductive Event where
  | recv (c : Conn) (freshId : RoomId) (msg : ClientMsg)
  | close (c : Conn)
deriving DecidableEq, Repr

/-- Server state plus which sockets have closed. -/
structure World where
  server : ServerState
  closed : List Conn
deriving DecidableEq, Repr

/-- `readyState === OPEN` for this world. -/
def isOpenW (w : World) : Conn → Bool := fun c => decide (c ∉ w.closed)

/-- One event step.  `none` when the event cannot occur (data from, or a
close of, an already-closed socket; a `freshId` colliding with an open
room, which `createUniqueRoomId` never returns) or when the handler throws
(which would crash the process). -/
def stepWorld (w : World) (e : Event) : Option (World × Sends) :=
  match e with
  | Event.recv c freshId msg =>
    if c ∈ w.closed then none
    else if (mapGet w.server.rooms freshId).isSome then none
    else
      match handleMessage (isOpenW w) w.server c freshId msg with
      | Except.error _ => none
      | Except.ok (st', outs) => some (⟨st', w.closed⟩, outs)
  | Event.close c =>
    if c ∈ w.closed then none
    else
      let w1 : World := ⟨w.server, c :: w.closed⟩
      let res := handleClose (isOpenW w1) w.server c
      some (⟨res.1, c :: w.closed⟩, res.2)

/-- The world of a freshly started server: no users, no rooms, no closed
sockets. -/
def initWorld : World := ⟨⟨[], []⟩, []⟩

/-- Run a list of events, failing if any step cannot occur. -/
def runTrace : World → List Event → Option World
  | w, [] => some w
  | w, e :: es =>
    match stepWorld w e with
    | none => none
    | some (w', _) => runTrace w' es

/-- A world the server can actually be in. -/
def Reachable (w : World) : Prop :=
  ∃ evs : List Event, runTrace initWorld evs = some w

/-! ## Association-list and set lemmas -/

section MapLemmas

variable {α β : Type} [DecidableEq α]

theorem mapGet_mapSet_self (m : List (α × β)) (k : α) (v : β) :
    mapGet (mapSet m k v) k = some v := by
  induction m with
  | nil => simp [mapSet, mapGet]
  | cons hd tl ih =>
    obtain ⟨k', v'⟩ := hd
    by_cases h : k = k' <;> simp [mapSet, mapGet, h, ih]

theorem mapGet_mapSet_ne (m : List (α × β)) (k k' : α) (v : β) (h : k' ≠ k) :
    mapGet (mapSet m k v) k' = mapGet m k' := by
  induction m with
  | nil => simp [mapSet, mapGet, h]
  | cons hd tl ih =>
    obtain ⟨k0, v0⟩ := hd
    by_cases h0 : k = k0
    · subst h0; simp [mapSet, mapGet, h]
    · by_cases h1 : k' = k0 <;> simp [mapSet, mapGet, h0, h1, ih]

theorem mapGet_eq_none_iff (m : List (α × β)) (k : α) :
    mapGet m k = none ↔ k ∉ m.map Prod.fst := by
  induction m with
  | nil => simp [mapGet]
  | cons hd tl ih =>
    obtain ⟨k', v'⟩ := hd
    by_cases h : k = k' <;> simp [mapGet, h, ih]

theorem keys_mapSet_of_mem (m : List (α × β)) (k : α) (v : β)
    (h : k ∈ m.map Prod.fst) :
    (mapSet m k v).map Prod.fst = m.map Prod.fst := by
  induction m with
  | nil => simp at h
  | cons hd tl ih =>
    obtain ⟨k', v'⟩ := hd
    by_cases h0 : k = k'
    · subst h0; simp [mapSet]
    · rw [List.map_cons, List.mem_cons] at h
      have htl : k ∈ tl.map Prod.fst := by
        rcases h with h | h
        · exact absurd h h0
        · exact h
      simp [mapSet, h0, ih htl]

theorem keys_mapSet_of_not_mem (m : List (α × β)) (k : α) (v : β)
    (h : k ∉ m.map Prod.fst) :
    (mapSet m k v).map Prod.fst = m.map Prod.fst ++ [k] := by
  induction m with
  | nil => simp [mapSet]
  | cons hd tl ih =>
    obtain ⟨k', v'⟩ := hd
    rw [List.map_cons, List.mem_cons] at h
    push_neg at h
    simp [mapSet, h.1, ih h.2]

theorem keysNodup_mapSet (m : List (α × β)) (k : α) (v : β)
    (h : (m.map Prod.fst).Nodup) : ((mapSet m k v).map Prod.fst).Nodup := by
  by_cases hk : k ∈ m.map Prod.fst
  · rw [keys_mapSet_of_mem m k v hk]; exact h
  · rw [keys_mapSet_of_not_mem m k v hk]
    simp [List.nodup_append, h, hk]

theorem mapGet_mapDel_self (m : List (α × β)) (k : α)
    (h : (m.map Prod.fst).Nodup) : mapGet (mapDel m k) k = none := by
  induction m with
  | nil => simp [mapDel, mapGet]
  | cons hd tl ih =>
    obtain ⟨k', v'⟩ := hd
    rw [List.map_cons, List.nodup_cons] at h
    by_cases h0 : k = k'
    · subst h0
      simp only [mapDel, if_pos rfl]
      exact (mapGet_eq_none_iff tl k).2 h.1
    · simp [mapDel, mapGet, h0, ih h.2]

theorem mapGet_mapDel_ne (m : List (α × β)) (k k' : α) (h : k' ≠ k) :
    mapGet (mapDel m k) k' = mapGet m k' := by
  induction m with
  | nil => simp [mapDel]
  | cons hd tl ih =>
    obtain ⟨k0, v0⟩ := hd
    by_cases h0 : k = k0
    · subst h0; simp [mapDel, mapGet, h]
    · by_cases h1 : k' = k0 <;> simp [mapDel, mapGet, h0, h1, ih]

theorem keys_mapDel_sublist (m : List (α × β)) (k : α) :
    ((mapDel m k).map Prod.fst).Sublist (m.map Prod.fst) := by
  induction m with
  | nil => simp [mapDel]
  | cons hd tl ih =>
    obtain ⟨k', v'⟩ := hd
    by_cases h0 : k = k'
    · rw [List.map_cons]
      simp only [mapDel, if_pos h0]
      exact (List.sublist_cons_self _ _)
    · simpa [mapDel, h0] using ih.cons₂ k'

theorem keysNodup_mapDel (m : List (α × β)) (k : α)
    (h : (m.map Prod.fst).Nodup) : ((mapDel m k).map Prod.fst).Nodup :=
  (keys_mapDel_sublist m k).nodup h

end MapLemmas

theorem mem_setAdd (s : List Conn) (c x : Conn) :
    x ∈ setAdd s c ↔ x ∈ s ∨ x = c := by
  unfold setAdd
  by_cases h : c ∈ s
  · rw [if_pos h]
    constructor
    · exact Or.inl
    · rintro (hx | rfl)
      · exact hx
      · exact h
  · rw [if_neg h]
    simp

theorem setAdd_nodup (s : List Conn) (c : Conn) (h : s.Nodup) :
    (setAdd s c).Nodup := by
  by_cases hc : c ∈ s
  · simpa [setAdd, hc] using h
  · simp [setAdd, hc, List.nodup_append, h]

theorem setAdd_length_le (s : List Conn) (c : Conn) :
    (setAdd s c).length ≤ s.length + 1 := by
  by_cases hc : c ∈ s <;> simp [setAdd, hc]

theorem length_le_setAdd_length (s : List Conn) (c : Conn) :
    s.length ≤ (setAdd s c).length := by
  by_cases hc : c ∈ s <;> simp [setAdd, hc]

theorem mem_setDel (s : List Conn) (c x : Conn) :
    x ∈ setDel s c ↔ x ∈ s ∧ x ≠ c := by
  simp [setDel]

theorem setDel_nodup (s : List Conn) (c : Conn) (h : s.Nodup) :
    (setDel s c).Nodup :=
  h.filter _

theorem setDel_length_le (s : List Conn) (c : Conn) :
    (setDel s c).length ≤ s.length :=
  List.length_filter_le _ _

theorem setDel_eq_nil_forall (s : List Conn) (c : Conn)
    (h : (setDel s c).length = 0) : ∀ x ∈ s, x = c := by
  intro x hx
  by_contra hne
  have : x ∈ setDel s c := (mem_setDel s c x).2 ⟨hx, hne⟩
  rw [List.length_eq_zero] at h
  simp [h] at this

/-! ## The server-state invariant -/

/-- The invariant maintained by every handler: the two maps have
duplicate-free keys, every room member set is a duplicate-free list of
size between 1 and `MAX_USERS_PER_ROOM`, and every registry entry points
at an existing room whose member set contains the registered socket. -/
structure Inv (st : ServerState) : Prop where
  roomsKeys : (st.rooms.map Prod.fst).Nodup
  usersKeys : (st.users.map Prod.fst).Nodup
  membersNodup : ∀ r ms, mapGet st.rooms r = some ms → ms.Nodup
  membersSize : ∀ r ms, mapGet st.rooms r = some ms →
    1 ≤ ms.length ∧ ms.length ≤ MAX_USERS_PER_ROOM
  registry : ∀ c r, mapGet st.users c = some r →
    ∃ ms, mapGet st.rooms r = some ms ∧ c ∈ ms

theorem inv_init : Inv initWorld.server := by
  constructor <;> simp [initWorld, mapGet]

theorem inv_handleCreateRoom (isOpen : Conn → Bool) (st : ServerState)
    (socket : Conn) (freshId : RoomId)
    (hfresh : mapGet st.rooms freshId = none) (hinv : Inv st) :
    Inv (handleCreateRoom isOpen st socket freshId).1 := by
  unfold handleCreateRoom
  by_cases hu : (mapGet st.users socket).isSome
  · rw [if_pos hu]; exact hinv
  · rw [if_neg hu]
    show Inv ⟨mapSet st.users socket freshId, mapSet st.rooms freshId [socket]⟩
    refine ⟨?_, ?_, ?_, ?_, ?_⟩
    · exact keysNodup_mapSet _ _ _ hinv.roomsKeys
    · exact keysNodup_mapSet _ _ _ hinv.usersKeys
    · intro r ms hms
      by_cases hr : r = freshId
      · subst hr
        rw [mapGet_mapSet_self] at hms
        have hms2 := Option.some.inj hms
        subst hms2
        simp
      · rw [mapGet_mapSet_ne _ _ _ _ hr] at hms
        exact hinv.membersNodup r ms hms
    · intro r ms hms
      by_cases hr : r = freshId
      · subst hr
        rw [mapGet_mapSet_self] at hms
        have hms2 := Option.some.inj hms
        subst hms2
        simp [MAX_USERS_PER_ROOM]
      · rw [mapGet_mapSet_ne _ _ _ _ hr] at hms
        exact hinv.membersSize r ms hms
    · intro c r hc
      by_cases hcs : c = socket
      · subst hcs
        rw [mapGet_mapSet_self] at hc
        have hc2 := Option.some.inj hc
        subst hc2
        refine ⟨[c], ?_, ?_⟩
        · rw [mapGet_mapSet_self]
        · simp
      · rw [mapGet_mapSet_ne _ _ _ _ hcs] at hc
        obtain ⟨ms, hms, hcm⟩ := hinv.registry c r hc
        have hrf : r ≠ freshId := by
          intro hh
          subst hh
          rw [hfresh] at hms
          cases hms
        exact ⟨ms, by rw [mapGet_mapSet_ne _ _ _ _ hrf]; exact hms, hcm⟩

theorem inv_handleJoinRoom (isOpen : Conn → Bool) (st : ServerState)
    (socket : Conn) (payload : Option Payload) (hinv : Inv st) :
    Inv (handleJoinRoom isOpen st socket payload).1 := by
  unfold handleJoinRoom
  split
  · exact hinv
  next room hroom =>
    split
    · exact hinv
    next h2 =>
      split
      · exact hinv
      next roomSockets h3 =>
        split
        · exact hinv
        next h4 =>
          dsimp only
          have hlen := hinv.membersSize room roomSockets h3
          have hnd := hinv.membersNodup room roomSockets h3
          refine ⟨?_, ?_, ?_, ?_, ?_⟩
          · exact keysNodup_mapSet _ _ _ hinv.roomsKeys
          · exact keysNodup_mapSet _ _ _ hinv.usersKeys
          · intro r ms hms
            by_cases hr : r = room
            · subst hr
              rw [mapGet_mapSet_self] at hms
              have hms2 := Option.some.inj hms
              subst hms2
              exact setAdd_nodup _ _ hnd
            · rw [mapGet_mapSet_ne _ _ _ _ hr] at hms
              exact hinv.membersNodup r ms hms
          · intro r ms hms
            by_cases hr : r = room
            · subst hr
              rw [mapGet_mapSet_self] at hms
              have hms2 := Option.some.inj hms
              subst hms2
              constructor
              · exact le_trans hlen.1 (length_le_setAdd_length _ _)
              · have h5 := setAdd_length_le roomSockets socket
                simp only [MAX_USERS_PER_ROOM] at h4 ⊢
                omega
            · rw [mapGet_mapSet_ne _ _ _ _ hr] at hms
              exact hinv.membersSize r ms hms
          · intro c r hc
            by_cases hcs : c = socket
            · subst hcs
              rw [mapGet_mapSet_self] at hc
              have hc2 := Option.some.inj hc
              subst hc2
              refine ⟨setAdd roomSockets c, ?_, ?_⟩
              · rw [mapGet_mapSet_self]
              · exact (mem_setAdd _ _ _).2 (Or.inr rfl)
            · rw [mapGet_mapSet_ne _ _ _ _ hcs] at hc
              obtain ⟨ms, hms, hcm⟩ := hinv.registry c r hc
              by_cases hr : r = room
              · subst hr
                rw [h3, Option.some.injEq] at hms
                rw [← hms] at hcm
                refine ⟨setAdd roomSockets socket, ?_, ?_⟩
                · rw [mapGet_mapSet_self]
                · exact (mem_setAdd _ _ _).2 (Or.inl hcm)
              · exact ⟨ms, by rw [mapGet_mapSet_ne _ _ _ _ hr]; exact hms, hcm⟩

theorem inv_handleClose (isOpen : Conn → Bool) (st : ServerState)
    (socket : Conn) (hinv : Inv st) :
    Inv (handleClose isOpen st socket).1 := by
  unfold handleClose
  split
  · exact hinv
  next userRoom hu =>
    split
    · refine ⟨hinv.roomsKeys, keysNodup_mapDel _ _ hinv.usersKeys,
        hinv.membersNodup, hinv.membersSize, ?_⟩
      intro c r hc
      by_cases hcs : c = socket
      · subst hcs
        rw [mapGet_mapDel_self _ _ hinv.usersKeys] at hc
        cases hc
      · rw [mapGet_mapDel_ne _ _ _ hcs] at hc
        exact hinv.registry c r hc
    next roomSockets hr =>
      dsimp only
      split
      next hz =>
        refine ⟨keysNodup_mapDel _ _ hinv.roomsKeys,
          keysNodup_mapDel _ _ hinv.usersKeys, ?_, ?_, ?_⟩
        · intro r ms hms
          by_cases hru : r = userRoom
          · subst hru
            rw [mapGet_mapDel_self _ _ hinv.roomsKeys] at hms
            cases hms
          · rw [mapGet_mapDel_ne _ _ _ hru] at hms
            exact hinv.membersNodup r ms hms
        · intro r ms hms
          by_cases hru : r = userRoom
          · subst hru
            rw [mapGet_mapDel_self _ _ hinv.roomsKeys] at hms
            cases hms
          · rw [mapGet_mapDel_ne _ _ _ hru] at hms
            exact hinv.membersSize r ms hms
        · intro c r hc
          by_cases hcs : c = socket
          · subst hcs
            rw [mapGet_mapDel_self _ _ hinv.usersKeys] at hc
            cases hc
          · rw [mapGet_mapDel_ne _ _ _ hcs] at hc
            obtain ⟨ms, hms, hcm⟩ := hinv.registry c r hc
            by_cases hru : r = userRoom
            · subst hru
              rw [hr, Option.some.injEq] at hms
              rw [← hms] at hcm
              exact absurd (setDel_eq_nil_forall roomSockets socket hz c hcm) hcs
            · exact ⟨ms, by rw [mapGet_mapDel_ne _ _ _ hru]; exact hms, hcm⟩
      next hz =>
        dsimp only
        have hnd := hinv.membersNodup userRoom roomSockets hr
        have hsz := hinv.membersSize userRoom roomSockets hr
        refine ⟨keysNodup_mapSet _ _ _ hinv.roomsKeys,
          keysNodup_mapDel _ _ hinv.usersKeys, ?_, ?_, ?_⟩
        · intro r ms hms
          by_cases hru : r = userRoom
          · subst hru
            rw [mapGet_mapSet_self] at hms
            have hms2 := Option.some.inj hms
            subst hms2
            exact setDel_nodup _ _ hnd
          · rw [mapGet_mapSet_ne _ _ _ _ hru] at hms
            exact hinv.membersNodup r ms hms
        · intro r ms hms
          by_cases hru : r = userRoom
          · subst hru
            rw [mapGet_mapSet_self] at hms
            have hms2 := Option.some.inj hms
            subst hms2
            constructor
            · exact Nat.pos_of_ne_zero hz
            · exact le_trans (setDel_length_le _ _) hsz.2
          · rw [mapGet_mapSet_ne _ _ _ _ hru] at hms
            exact hinv.membersSize r ms hms
        · intro c r hc
          by_cases hcs : c = socket
          · subst hcs
            rw [mapGet_mapDel_self _ _ hinv.usersKeys] at hc
            cases hc
          · rw [mapGet_mapDel_ne _ _ _ hcs] at hc
            obtain ⟨ms, hms, hcm⟩ := hinv.registry c r hc
            by_cases hru : r = userRoom
            · subst hru
              rw [hr, Option.some.injEq] at hms
              rw [← hms] at hcm
              refine ⟨setDel roomSockets socket, ?_, ?_⟩
              · rw [mapGet_mapSet_self]
              · exact (mem_setDel _ _ _).2 ⟨hcm, hcs⟩
            · exact ⟨ms, by rw [mapGet_mapSet_ne _ _ _ _ hru]; exact hms, hcm⟩

theorem inv_handleMessage (isOpen : Conn → Bool) (st : ServerState)
    (socket : Conn) (freshId : RoomId) (msg : ClientMsg)
    (hfresh : mapGet st.rooms freshId = none) (hinv : Inv st)
    (st' : ServerState) (outs : Sends)
    (h : handleMessage isOpen st socket freshId msg = Except.ok (st', outs)) :
    Inv st' := by
  cases msg with
  | malformed =>
    simp only [handleMessage] at h
    rw [Except.ok.injEq, Prod.mk.injEq] at h
    exact h.1 ▸ hinv
  | nullVal => simp [handleMessage] at h
  | obj ty payload =>
    simp only [handleMessage] at h
    by_cases hc : ty = some "create-room"
    · rw [if_pos hc, Except.ok.injEq] at h
      have h1 : (handleCreateRoom isOpen st socket freshId).1 = st' :=
        congrArg Prod.fst h
      exact h1 ▸ inv_handleCreateRoom isOpen st socket freshId hfresh hinv
    · rw [if_neg hc] at h
      by_cases hj : ty = some "join-room"
      · rw [if_pos hj, Except.ok.injEq] at h
        have h1 : (handleJoinRoom isOpen st socket payload).1 = st' :=
          congrArg Prod.fst h
        exact h1 ▸ inv_handleJoinRoom isOpen st socket payload hinv
      · rw [if_neg hj] at h
        split at h
        · rw [Except.ok.injEq, Prod.mk.injEq] at h
          exact h.1 ▸ hinv
        · split at h
          · rw [Except.ok.injEq, Prod.mk.injEq] at h
            exact h.1 ▸ hinv
          · by_cases ht : ty = some "typing"
            · rw [if_pos ht] at h
              split at h
              · cases h
              · rw [Except.ok.injEq, Prod.mk.injEq] at h
                exact h.1 ▸ hinv
            · rw [if_neg ht] at h
              by_cases hm : ty = some "message"
              · rw [if_pos hm] at h
                split at h
                · rw [Except.ok.injEq, Prod.mk.injEq] at h
                  exact h.1 ▸ hinv
                · rw [Except.ok.injEq, Prod.mk.injEq] at h
                  exact h.1 ▸ hinv
              · rw [if_neg hm] at h
                by_cases hs : ty = some "seen"
                · rw [if_pos hs] at h
                  split at h
                  · rw [Except.ok.injEq, Prod.mk.injEq] at h
                    exact h.1 ▸ hinv
                  · rw [Except.ok.injEq, Prod.mk.injEq] at h
                    exact h.1 ▸ hinv
                · rw [if_neg hs, Except.ok.injEq, Prod.mk.injEq] at h
                  exact h.1 ▸ hinv

theorem stepWorld_inv (w : World) (e : Event) (w' : World) (outs : Sends)
    (h : stepWorld w e = some (w', outs)) (hinv : Inv w.server) :
    Inv w'.server := by
  cases e with
  | recv c freshId msg =>
    simp only [stepWorld] at h
    by_cases hc : c ∈ w.closed
    · rw [if_pos hc] at h; exact Option.noConfusion h
    · rw [if_neg hc] at h
      by_cases hf : (mapGet w.server.rooms freshId).isSome = true
      · rw [if_pos hf] at h; exact Option.noConfusion h
      · rw [if_neg hf] at h
        cases hm : handleMessage (isOpenW w) w.server c freshId msg with
        | error e0 => rw [hm] at h; exact Option.noConfusion h
        | ok p =>
          obtain ⟨st2, outs2⟩ := p
          simp only [hm] at h
          rw [Option.some.injEq, Prod.mk.injEq] at h
          obtain ⟨h1, h2⟩ := h
          subst h1
          exact inv_handleMessage (isOpenW w) w.server c freshId msg
            (Option.not_isSome_iff_eq_none.1 hf) hinv st2 outs2 hm
  | close c =>
    simp only [stepWorld] at h
    by_cases hc : c ∈ w.closed
    · rw [if_pos hc] at h; exact Option.noConfusion h
    · rw [if_neg hc] at h
      rw [Option.some.injEq, Prod.mk.injEq] at h
      obtain ⟨h1, h2⟩ := h
      subst h1
      exact inv_handleClose _ w.server c hinv

theorem runTrace_inv (evs : List Event) :
    ∀ w w', runTrace w evs = some w' → Inv w.server → Inv w'.server := by
  induction evs with
  | nil =>
    intro w w' h hi
    simp only [runTrace, Option.some.injEq] at h
    exact h ▸ hi
  | cons e es ih =>
    intro w w' h hi
    simp only [runTrace] at h
    cases hs : stepWorld w e with
    | none => rw [hs] at h; exact Option.noConfusion h
    | some p =>
      obtain ⟨w2, outs2⟩ := p
      simp only [hs] at h
      exact ih w2 w' h (stepWorld_inv w e w2 outs2 hs hi)

theorem reachable_inv (w : World) (h : Reachable w) : Inv w.server := by
  obtain ⟨evs, hrun⟩ := h
  exact runTrace_inv evs initWorld w hrun inv_init

/-! ## Broadcast recipient characterizations -/

theorem mem_roomBroadcastExceptSender (isOpen : Conn → Bool)
    (ms : List Conn) (socket : Conn) (env : Envelope) (x : Conn)
    (e : Envelope) :
    (x, e) ∈ roomBroadcastExceptSender isOpen ms socket env ↔
      e = env ∧ x ∈ ms ∧ x ≠ socket ∧ isOpen x = true := by
  unfold roomBroadcastExceptSender
  rw [List.mem_map]
  constructor
  · rintro ⟨a, ha, heq⟩
    rw [List.mem_filter] at ha
    rw [Prod.mk.injEq] at heq
    obtain ⟨hax, hee⟩ := heq
    subst hax
    by_cases hx : a = socket
    · rw [if_pos hx] at ha
      exact absurd ha.2 (by simp)
    · rw [if_neg hx] at ha
      exact ⟨hee.symm, ha.1, hx, ha.2⟩
  · rintro ⟨rfl, hx, hxs, ho⟩
    refine ⟨x, ?_, rfl⟩
    rw [List.mem_filter]
    exact ⟨hx, by rw [if_neg hxs]; exact ho⟩

theorem mem_roomBroadcastAll (isOpen : Conn → Bool) (ms : List Conn)
    (env : Envelope) (x : Conn) (e : Envelope) :
    (x, e) ∈ roomBroadcastAll isOpen ms env ↔
      e = env ∧ x ∈ ms ∧ isOpen x = true := by
  unfold roomBroadcastAll
  rw [List.mem_map]
  constructor
  · rintro ⟨a, ha, heq⟩
    rw [List.mem_filter] at ha
    rw [Prod.mk.injEq] at heq
    obtain ⟨hax, hee⟩ := heq
    subst hax
    exact ⟨hee.symm, ha.1, ha.2⟩
  · rintro ⟨rfl, hx, ho⟩
    refine ⟨x, ?_, rfl⟩
    rw [List.mem_filter]
    exact ⟨hx, ho⟩

/-! ## Concrete traces used as witnesses and counterexamples -/

/-- Connection 0 creates a room and gets id `"1000"`. -/
def w1Trace : List Event :=
  [Event.recv 0 "1000" (ClientMsg.obj (some "create-room") none)]

/-- The world after `w1Trace`. -/
def w1 : World := ⟨⟨[(0, "1000")], [("1000", [0])]⟩, []⟩

/-- Connection 0 creates room `"1000"`, connection 1 creates room `"2000"`,
then connection 0 — already assigned to `"1000"` — sends
`join-room{room:"2000"}`. -/
def c1Trace : List Event :=
  [Event.recv 0 "1000" (ClientMsg.obj (some "create-room") none),
   Event.recv 1 "2000" (ClientMsg.obj (some "create-room") none),
   Event.recv 0 "3000" (ClientMsg.obj (some "join-room")
     (some ⟨some "2000", none, none, false⟩))]

/-- The world after `c1Trace`: connection 0 sits in both member sets. -/
def c1World : World :=
  ⟨⟨[(0, "2000"), (1, "2000")], [("1000", [0]), ("2000", [1, 0])]⟩, []⟩

/-! ## Claims -/

/-- C1, counterexample.  The claim says each connection is a member of at
most one room's member set and that a join-room from an already-assigned
connection is silently dropped.  In the code the `create-room` handler
checks `users.has(socket)` but the `join-room` handler does not: after the
reachable trace `c1Trace`, connection 0 is a member of both room
`"1000"`'s and room `"2000"`'s member sets, and its registry entry was
rewritten to `"2000"` — the join was not dropped and the at-most-one-room
invariant is false. -/
theorem c1_join_breaks_single_room_invariant :
    runTrace initWorld c1Trace = some c1World ∧
    mapGet c1World.server.rooms "1000" = some [0] ∧
    mapGet c1World.server.rooms "2000" = some [1, 0] ∧
    (0 : Conn) ∈ [(0 : Conn)] ∧ (0 : Conn) ∈ [(1 : Conn), 0] ∧
    mapGet c1World.server.users 0 = some "2000" := by
  refine ⟨by decide, by decide, by decide, by decide, by decide, by decide⟩

/-- C1, amended.  For every reachable world, every connection with a
registry entry is a member of the member set of the room its registry
entry records (there may be further stale memberships left by unguarded
joins), and a `create-room` event from a connection that already has a
registry entry is silently dropped: the state is unchanged and nothing is
sent. -/
theorem c1_registry_room_membership (w : World) (h : Reachable w) :
    (∀ c r, mapGet w.server.users c = some r →
      ∃ ms, mapGet w.server.rooms r = some ms ∧ c ∈ ms) ∧
    (∀ (isOpen : Conn → Bool) (c : Conn) (fid : RoomId) (pl : Option Payload),
      (mapGet w.server.users c).isSome →
      handleMessage isOpen w.server c fid
        (ClientMsg.obj (some "create-room") pl) =
        Except.ok (w.server, [])) := by
  constructor
  · exact (reachable_inv w h).registry
  · intro isOpen c fid pl hc
    simp only [handleMessage, if_pos rfl]
    unfold handleCreateRoom
    rw [if_pos hc]
    simp

/-- Witness for C1's amended theorem at the concrete reachable world
`w1`. -/
theorem c1_registry_room_membership_witness :
    Reachable w1 ∧
    (∃ ms, mapGet w1.server.rooms "1000" = some ms ∧ (0 : Conn) ∈ ms) ∧
    handleMessage (fun _ => true) w1.server 0 "9999"
      (ClientMsg.obj (some "create-room") none) =
      Except.ok (w1.server, []) := by
  have hr : Reachable w1 := ⟨w1Trace, by decide⟩
  refine ⟨hr, ?_, ?_⟩
  · exact (c1_registry_room_membership w1 hr).1 0 "1000" (by decide)
  · exact (c1_registry_room_membership w1 hr).2 (fun _ => true) 0 "9999" none
      (by decide)

/-- C2: in every reachable world, every room present in the room table has
between 1 and 2 members: rooms are created with their creator as sole
member, a join into a room at capacity 2 is rejected, and a room whose
member set empties on close is deleted in that same step. -/
theorem c2_room_capacity_invariant (w : World) (h : Reachable w) :
    ∀ r ms, mapGet w.server.rooms r = some ms →
      1 ≤ ms.length ∧ ms.length ≤ 2 := by
  intro r ms hms
  have hs := (reachable_inv w h).membersSize r ms hms
  simpa [MAX_USERS_PER_ROOM] using hs

/-- Witness for C2 at the concrete reachable world `w1`. -/
theorem c2_room_capacity_invariant_witness :
    Reachable w1 ∧ mapGet w1.server.rooms "1000" = some [0] ∧
    (1 ≤ ([(0 : Conn)]).length ∧ ([(0 : Conn)]).length ≤ 2) := by
  have hr : Reachable w1 := ⟨w1Trace, by decide⟩
  exact ⟨hr, by decide, c2_room_capacity_invariant w1 hr "1000" [0] (by decide)⟩

/-- C3: the claim says every inbound envelope is handled without throwing.
The `typing` handler reads `message.payload.typing` without the
`|| {}` guard used by every other handler, so a `typing` envelope with no
payload from a connection that is in a room throws a `TypeError`: at the
reachable world `w1` the handler ends in `Except.error ()` and the step
relation has no successor (the process would crash). -/
theorem c3_typing_without_payload_throws :
    runTrace initWorld w1Trace = some w1 ∧
    handleMessage (isOpenW w1) w1.server 0 "9999"
      (ClientMsg.obj (some "typing") none) = Except.error () ∧
    stepWorld w1 (Event.recv 0 "9999" (ClientMsg.obj (some "typing") none)) =
      none := by
  refine ⟨by decide, by rfl, by decide⟩

/-- C4: `createUniqueRoomId` never returns the id of an open room
(whatever the random stream produces), the open-room identifiers of every
reachable world are pairwise distinct, and an id not held by any open room
— in particular one freed by room deletion — can be returned again. -/
theorem c4_createUniqueRoomId_fresh :
    (∀ (gen : Nat → RoomId) (rooms : List (RoomId × List Conn))
      (fuel k : Nat) (id : RoomId),
      createUniqueRoomId gen rooms fuel k = some id →
      mapGet rooms id = none) ∧
    (∀ w, Reachable w → (w.server.rooms.map Prod.fst).Nodup) ∧
    (∀ (rooms : List (RoomId × List Conn)) (id : RoomId) (fuel : Nat),
      mapGet rooms id = none →
      createUniqueRoomId (fun _ => id) rooms (fuel + 1) 0 = some id) := by
  refine ⟨?_, ?_, ?_⟩
  · intro gen rooms fuel
    induction fuel with
    | zero =>
      intro k id h
      simp only [createUniqueRoomId] at h
      exact Option.noConfusion h
    | succ n ih =>
      intro k id h
      simp only [createUniqueRoomId] at h
      by_cases hg : (mapGet rooms (gen k)).isSome = true
      · rw [if_pos hg] at h
        exact ih (k + 1) id h
      · rw [if_neg hg, Option.some.injEq] at h
        subst h
        exact Option.not_isSome_iff_eq_none.1 hg
  · intro w hw
    exact (reachable_inv w hw).roomsKeys
  · intro rooms id fuel h
    simp [createUniqueRoomId, h]

/-- Witness for C4: a concrete generator, room table and reachable
world. -/
theorem c4_createUniqueRoomId_fresh_witness :
    mapGet [("1000", [(0 : Conn)])] "2000" = none ∧
    createUniqueRoomId (fun _ => "2000") [("1000", [(0 : Conn)])] 1 0 =
      some "2000" ∧
    (w1.server.rooms.map Prod.fst).Nodup := by
  have hfresh : mapGet [("1000", [(0 : Conn)])] "2000" = none := by decide
  refine ⟨c4_createUniqueRoomId_fresh.1 (fun _ => "2000") _ 1 0 "2000"
      (c4_createUniqueRoomId_fresh.2.2 _ "2000" 0 hfresh),
    c4_createUniqueRoomId_fresh.2.2 _ "2000" 0 hfresh,
    c4_createUniqueRoomId_fresh.2.1 w1 ⟨w1Trace, by decide⟩⟩

/-- C5: for a join-room envelope whose payload carries a present,
non-empty room id `r`: the handler answers `error "Room does not exist"`
to the sender alone, with the state unchanged, exactly when no room `r` is
open; it answers `error "Room is full"` to the sender alone, with the
state unchanged, exactly when room `r` is open with 2 members; otherwise
the sender is added to the member set, registered to `r`, and sent
`joined{room}` (followed by the `user-count` broadcast). -/
theorem c5_join_room_semantics (isOpen : Conn → Bool) (st : ServerState)
    (socket : Conn) (fid : RoomId) (p : Payload) (r : RoomId)
    (hr : p.room = some r) (hne : r ≠ "") :
    handleMessage isOpen st socket fid
      (ClientMsg.obj (some "join-room") (some p)) =
      Except.ok (handleJoinRoom isOpen st socket (some p)) ∧
    (handleJoinRoom isOpen st socket (some p) =
        (st, [(socket, Envelope.errorMsg "Room does not exist")]) ↔
      mapGet st.rooms r = none) ∧
    (handleJoinRoom isOpen st socket (some p) =
        (st, [(socket, Envelope.errorMsg "Room is full")]) ↔
      ∃ ms, mapGet st.rooms r = some ms ∧ 2 ≤ ms.length) ∧
    (∀ ms, mapGet st.rooms r = some ms → ms.length < 2 →
      handleJoinRoom isOpen st socket (some p) =
        (⟨mapSet st.users socket r, mapSet st.rooms r (setAdd ms socket)⟩,
          (socket, Envelope.joined r) ::
            broadcastUserCount isOpen
              (mapSet st.rooms r (setAdd ms socket)) r) ∧
      socket ∈ setAdd ms socket) := by
  have hd : handleMessage isOpen st socket fid
      (ClientMsg.obj (some "join-room") (some p)) =
      Except.ok (handleJoinRoom isOpen st socket (some p)) := by
    simp only [handleMessage]
    rw [if_pos trivial]
    rw [if_neg (by decide)]
  refine ⟨hd, ?_, ?_, ?_⟩
  · unfold handleJoinRoom
    simp only [Option.getD_some, hr]
    rw [if_neg hne]
    cases hm : mapGet st.rooms r with
    | none => simp
    | some ms0 =>
      simp only []
      by_cases hfull : MAX_USERS_PER_ROOM ≤ ms0.length
      · rw [if_pos hfull]
        simp
      · rw [if_neg hfull]
        constructor
        · intro hcontr
          rw [Prod.mk.injEq] at hcontr
          exact absurd hcontr.2 (by simp)
        · intro hcontr
          exact Option.noConfusion hcontr
  · unfold handleJoinRoom
    simp only [Option.getD_some, hr]
    rw [if_neg hne]
    cases hm : mapGet st.rooms r with
    | none => simp
    | some ms0 =>
      simp only []
      by_cases hfull : MAX_USERS_PER_ROOM ≤ ms0.length
      · rw [if_pos hfull]
        simp only [MAX_USERS_PER_ROOM] at hfull
        constructor
        · intro _
          exact ⟨ms0, rfl, hfull⟩
        · intro _
          rfl
      · rw [if_neg hfull]
        simp only [MAX_USERS_PER_ROOM] at hfull
        constructor
        · intro hcontr
          rw [Prod.mk.injEq] at hcontr
          exact absurd hcontr.2 (by simp)
        · rintro ⟨ms1, hms1, hlen1⟩
          rw [Option.some.injEq] at hms1
          exact absurd (hms1 ▸ hlen1) hfull
  · intro ms hms hlen
    constructor
    · unfold handleJoinRoom
      simp only [Option.getD_some, hr]
      rw [if_neg hne]
      simp only [hms]
      rw [if_neg (by simp only [MAX_USERS_PER_ROOM]; omega)]
    · exact (mem_setAdd _ _ _).2 (Or.inr rfl)

/-- Witness for C5: joining the one-member room `"1000"` of the reachable
world `w1` from connection 1. -/
theorem c5_join_room_semantics_witness :
    (⟨some "1000", none, none, false⟩ : Payload).room = some "1000" ∧
    ("1000" : RoomId) ≠ "" ∧
    (handleJoinRoom (fun _ => true) w1.server 1
        (some ⟨some "1000", none, none, false⟩) =
        (w1.server, [(1, Envelope.errorMsg "Room does not exist")]) ↔
      mapGet w1.server.rooms "1000" = none) := by
  refine ⟨rfl, by decide, ?_⟩
  exact (c5_join_room_semantics (fun _ => true) w1.server 1 "9999"
    ⟨some "1000", none, none, false⟩ "1000" rfl (by decide)).2.1

/-- C6: a `message` event with non-empty `id` and `text` from a connection
registered in room `r` with member set `ms` leaves the state unchanged,
delivers `message{id, message:text}` to exactly the open members of `ms`
other than the sender (the sender is never echoed, no connection outside
the room receives it), produces exactly one `delivered{id}` to the sender,
and sends nothing else. -/
theorem c6_message_routing (isOpen : Conn → Bool) (st : ServerState)
    (socket : Conn) (fid : RoomId) (p : Payload) (i t : String)
    (hi : p.id = some i) (hine : i ≠ "") (ht : p.text = some t)
    (htne : t ≠ "") (r : RoomId) (ms : List Conn)
    (hu : mapGet st.users socket = some r)
    (hm : mapGet st.rooms r = some ms) :
    ∃ outs, handleMessage isOpen st socket fid
        (ClientMsg.obj (some "message") (some p)) = Except.ok (st, outs) ∧
      (∀ x, (x, Envelope.chatMsg i t) ∈ outs ↔
        x ∈ ms ∧ x ≠ socket ∧ isOpen x = true) ∧
      outs.count (socket, Envelope.delivered i) = 1 ∧
      (∀ e, e ∈ outs →
        (∃ x, e = (x, Envelope.chatMsg i t) ∧ x ∈ ms ∧ x ≠ socket ∧
          isOpen x = true) ∨ e = (socket, Envelope.delivered i)) := by
  refine ⟨roomBroadcastExceptSender isOpen ms socket (Envelope.chatMsg i t) ++
      [(socket, Envelope.delivered i)], ?_, ?_, ?_, ?_⟩
  · simp only [handleMessage]
    simp only [hu, hm]
    simp [truthy, hi, ht, hine, htne]
  · intro x
    rw [List.mem_append, mem_roomBroadcastExceptSender]
    constructor
    · rintro (⟨_, hx, hxs, ho⟩ | habs)
      · exact ⟨hx, hxs, ho⟩
      · rw [List.mem_singleton, Prod.mk.injEq] at habs
        exact absurd habs.2 (by simp)
    · rintro ⟨hx, hxs, ho⟩
      exact Or.inl ⟨rfl, hx, hxs, ho⟩
  · rw [List.count_append]
    have h0 : (roomBroadcastExceptSender isOpen ms socket
        (Envelope.chatMsg i t)).count (socket, Envelope.delivered i) = 0 := by
      rw [List.count_eq_zero]
      intro habs
      rw [mem_roomBroadcastExceptSender] at habs
      exact absurd habs.1 (by simp)
    rw [h0]
    simp
  · intro e he
    rw [List.mem_append] at he
    rcases he with he | he
    · obtain ⟨x, env⟩ := e
      rw [mem_roomBroadcastExceptSender] at he
      exact Or.inl ⟨x, by rw [he.1], he.2⟩
    · rw [List.mem_singleton] at he
      exact Or.inr he

/-- Witness for C6 at a two-member room. -/
theorem c6_message_routing_witness :
    (⟨none, some "m1", some "hi", false⟩ : Payload).id = some "m1" ∧
    ("m1" : String) ≠ "" ∧
    (⟨none, some "m1", some "hi", false⟩ : Payload).text = some "hi" ∧
    ("hi" : String) ≠ "" ∧
    mapGet [(0, "1000"), (1, "1000")] (0 : Conn) = some "1000" ∧
    mapGet [("1000", [0, 1])] "1000" = some [(0 : Conn), 1] ∧
    ∃ outs, handleMessage (fun _ => true)
        ⟨[(0, "1000"), (1, "1000")], [("1000", [0, 1])]⟩ 0 "9999"
        (ClientMsg.obj (some "message")
          (some ⟨none, some "m1", some "hi", false⟩)) =
        Except.ok (⟨[(0, "1000"), (1, "1000")], [("1000", [0, 1])]⟩, outs) ∧
      (∀ x, (x, Envelope.chatMsg "m1" "hi") ∈ outs ↔
        x ∈ [(0 : Conn), 1] ∧ x ≠ 0 ∧ (fun _ => true) x = true) ∧
      outs.count (0, Envelope.delivered "m1") = 1 ∧
      (∀ e, e ∈ outs →
        (∃ x, e = (x, Envelope.chatMsg "m1" "hi") ∧ x ∈ [(0 : Conn), 1] ∧
          x ≠ 0 ∧ (fun _ => true) x = true) ∨
        e = (0, Envelope.delivered "m1")) := by
  refine ⟨rfl, by decide, rfl, by decide, by decide, by decide, ?_⟩
  exact c6_message_routing (fun _ => true)
    ⟨[(0, "1000"), (1, "1000")], [("1000", [0, 1])]⟩ 0 "9999"
    ⟨none, some "m1", some "hi", false⟩ "m1" "hi" rfl (by decide) rfl
    (by decide) "1000" [0, 1] (by decide) (by decide)

/-- C7: a `seen` event with a present, non-empty `id` from a connection
registered in room `r` with member set `ms` leaves the state unchanged and
sends exactly `seen{id}` to exactly the open members of `ms` — the sender
included when open — and nothing to any connection outside the room. -/
theorem c7_seen_routing (isOpen : Conn → Bool) (st : ServerState)
    (socket : Conn) (fid : RoomId) (p : Payload) (i : String)
    (hi : p.id = some i) (hine : i ≠ "") (r : RoomId) (ms : List Conn)
    (hu : mapGet st.users socket = some r)
    (hm : mapGet st.rooms r = some ms) :
    ∃ outs, handleMessage isOpen st socket fid
        (ClientMsg.obj (some "seen") (some p)) = Except.ok (st, outs) ∧
      (∀ x e, (x, e) ∈ outs ↔
        e = Envelope.seen i ∧ x ∈ ms ∧ isOpen x = true) := by
  refine ⟨roomBroadcastAll isOpen ms (Envelope.seen i), ?_, ?_⟩
  · simp only [handleMessage]
    simp only [hu, hm]
    simp [truthy, hi, hine]
  · intro x e
    exact mem_roomBroadcastAll isOpen ms (Envelope.seen i) x e

/-- Witness for C7 at a two-member room: both members, the sender
included, receive `seen`. -/
theorem c7_seen_routing_witness :
    (⟨none, some "m1", none, false⟩ : Payload).id = some "m1" ∧
    ("m1" : String) ≠ "" ∧
    mapGet [(0, "1000"), (1, "1000")] (0 : Conn) = some "1000" ∧
    mapGet [("1000", [0, 1])] "1000" = some [(0 : Conn), 1] ∧
    ∃ outs, handleMessage (fun _ => true)
        ⟨[(0, "1000"), (1, "1000")], [("1000", [0, 1])]⟩ 0 "9999"
        (ClientMsg.obj (some "seen")
          (some ⟨none, some "m1", none, false⟩)) =
        Except.ok (⟨[(0, "1000"), (1, "1000")], [("1000", [0, 1])]⟩, outs) ∧
      (∀ x e, (x, e) ∈ outs ↔
        e = Envelope.seen "m1" ∧ x ∈ [(0 : Conn), 1] ∧
          (fun _ => true) x = true) := by
  refine ⟨rfl, by decide, by decide, by decide, ?_⟩
  exact c7_seen_routing (fun _ => true)
    ⟨[(0, "1000"), (1, "1000")], [("1000", [0, 1])]⟩ 0 "9999"
    ⟨none, some "m1", none, false⟩ "m1" rfl (by decide) "1000" [0, 1]
    (by decide) (by decide)

/-- Connection 0 creates room `"1000"`, connection 1 creates room
`"2000"`, connection 0 joins `"2000"` (leaving a stale membership of 0 in
`"1000"`), connection 0 closes (it is removed from `"2000"`, its
registered room, but stays in `"1000"`'s member set), and connection 2
joins `"1000"`. -/
def c8Trace : List Event :=
  [Event.recv 0 "1000" (ClientMsg.obj (some "create-room") none),
   Event.recv 1 "2000" (ClientMsg.obj (some "create-room") none),
   Event.recv 0 "3000" (ClientMsg.obj (some "join-room")
     (some ⟨some "2000", none, none, false⟩)),
   Event.close 0,
   Event.recv 2 "4000" (ClientMsg.obj (some "join-room")
     (some ⟨some "1000", none, none, false⟩))]

/-- The world after `c8Trace`: room `"1000"` holds the closed socket 0 and
the open socket 2. -/
def c8World : World :=
  ⟨⟨[(1, "2000"), (2, "1000")], [("1000", [0, 2]), ("2000", [1])]⟩, [0]⟩

/-- C8, counterexample.  The claim says that when a registered connection
closes and its room's member set stays non-empty, `user-count` is sent to
each remaining member.  The code only sends to sockets whose
`readyState` is `OPEN`, and a closed socket can linger in a member set
(the unguarded join of C1): after `c8Trace`, closing connection 2 leaves
room `"1000"` with remaining member 0, yet the step emits no envelope at
all, because 0's socket is closed. -/
theorem c8_counterexample :
    runTrace initWorld c8Trace = some c8World ∧
    stepWorld c8World (Event.close 2) =
      some (⟨⟨[(1, "2000")], [("1000", [0]), ("2000", [1])]⟩, [2, 0]⟩,
        []) ∧
    mapGet (⟨[(1, "2000")], [("1000", [0]), ("2000", [1])]⟩ :
      ServerState).rooms "1000" = some [0] := by
  refine ⟨by decide, by decide, by decide⟩

/-- C8, amended.  On socket close of a connection with a registry entry
pointing at room `r` with member set `ms`: the connection is removed from
`ms`; if the remainder is empty the room is deleted and nothing is sent;
if non-empty the room persists with the remainder as member set and
`user-count{count,max}` (with `max = 2`) is sent to exactly the remaining
members whose sockets are open — a send to a closed socket is skipped;
the registry entry is removed in every case; and a connection with no
registry entry causes no change and no send. -/
theorem c8_close_semantics (isOpen : Conn → Bool) (st : ServerState)
    (socket : Conn) :
    MAX_USERS_PER_ROOM = 2 ∧
    (mapGet st.users socket = none →
      handleClose isOpen st socket = (st, [])) ∧
    (∀ r ms, mapGet st.users socket = some r →
      mapGet st.rooms r = some ms →
      ((setDel ms socket).length = 0 →
        handleClose isOpen st socket =
          (⟨mapDel st.users socket, mapDel st.rooms r⟩, [])) ∧
      ((setDel ms socket).length ≠ 0 →
        handleClose isOpen st socket =
          (⟨mapDel st.users socket, mapSet st.rooms r (setDel ms socket)⟩,
            roomBroadcastAll isOpen (setDel ms socket)
              (Envelope.userCount (setDel ms socket).length
                MAX_USERS_PER_ROOM)) ∧
        (∀ x e, (x, e) ∈ (handleClose isOpen st socket).2 ↔
          e = Envelope.userCount (setDel ms socket).length
                MAX_USERS_PER_ROOM ∧
            x ∈ setDel ms socket ∧ isOpen x = true))) := by
  refine ⟨rfl, ?_, ?_⟩
  · intro hn
    unfold handleClose
    rw [hn]
  · intro r ms hu hm
    have hbase : ∀ hz : (setDel ms socket).length ≠ 0,
        handleClose isOpen st socket =
          (⟨mapDel st.users socket, mapSet st.rooms r (setDel ms socket)⟩,
            roomBroadcastAll isOpen (setDel ms socket)
              (Envelope.userCount (setDel ms socket).length
                MAX_USERS_PER_ROOM)) := by
      intro hz
      unfold handleClose
      simp only [hu, hm]
      rw [if_neg hz]
      unfold broadcastUserCount
      rw [mapGet_mapSet_self]
    constructor
    · intro hz
      unfold handleClose
      simp only [hu, hm]
      rw [if_pos hz]
    · intro hz
      refine ⟨hbase hz, ?_⟩
      intro x e
      rw [hbase hz]
      exact mem_roomBroadcastAll isOpen (setDel ms socket) _ x e

/-- Witness for C8's amended theorem: closing connection 1 of the
two-member room `"1000"` keeps the room with member 0 and sends
`user-count{1,2}` to it; closing the sole member 0 of `w1`'s room deletes
the room with no send. -/
theorem c8_close_semantics_witness :
    mapGet [(0, "1000"), (1, "1000")] (1 : Conn) = some "1000" ∧
    mapGet [("1000", [0, 1])] "1000" = some [(0 : Conn), 1] ∧
    (setDel [0, 1] 1).length ≠ 0 ∧
    handleClose (fun _ => true)
        ⟨[(0, "1000"), (1, "1000")], [("1000", [0, 1])]⟩ 1 =
      (⟨[(0, "1000")], [("1000", [0])]⟩,
        [(0, Envelope.userCount 1 2)]) ∧
    mapGet w1.server.users (0 : Conn) = some "1000" ∧
    (setDel [0] 0).length = 0 ∧
    handleClose (fun _ => true) w1.server 0 = (⟨[], []⟩, []) := by
  have h1 := ((c8_close_semantics (fun _ => true)
    ⟨[(0, "1000"), (1, "1000")], [("1000", [0, 1])]⟩ 1).2.2 "1000" [0, 1]
    (by decide) (by decide)).2 (by decide)
  have h2 := ((c8_close_semantics (fun _ => true) w1.server 0).2.2 "1000" [0]
    (by decide) (by decide)).1 (by decide)
  exact ⟨by decide, by decide, by decide, h1.1, by decide, by decide, h2⟩

/-- C9: a join-room envelope with no payload, or whose `room` field is
absent or the empty string, is answered with `error "Room does not
exist"` to the sender only — it is not silently ignored — and the state
is unchanged. -/
theorem c9_join_missing_room_field (isOpen : Conn → Bool)
    (st : ServerState) (socket : Conn) :
    handleJoinRoom isOpen st socket none =
      (st, [(socket, Envelope.errorMsg "Room does not exist")]) ∧
    (∀ p : Payload, p.room = none →
      handleJoinRoom isOpen st socket (some p) =
        (st, [(socket, Envelope.errorMsg "Room does not exist")])) ∧
    (∀ p : Payload, p.room = some "" →
      handleJoinRoom isOpen st socket (some p) =
        (st, [(socket, Envelope.errorMsg "Room does not exist")])) := by
  refine ⟨rfl, ?_, ?_⟩
  · intro p hp
    unfold handleJoinRoom
    simp only [Option.getD_some, hp]
  · intro p hp
    unfold handleJoinRoom
    simp only [Option.getD_some, hp]
    rw [if_pos trivial]

/-- Witness for C9 at concrete empty payloads. -/
theorem c9_join_missing_room_field_witness :
    (Payload.empty.room = none) ∧
    handleJoinRoom (fun _ => true) w1.server 1 (some Payload.empty) =
      (w1.server, [(1, Envelope.errorMsg "Room does not exist")]) ∧
    ((⟨some "", none, none, false⟩ : Payload).room = some "") ∧
    handleJoinRoom (fun _ => true) w1.server 1
        (some ⟨some "", none, none, false⟩) =
      (w1.server, [(1, Envelope.errorMsg "Room does not exist")]) := by
  refine ⟨rfl, ?_, rfl, ?_⟩
  · exact (c9_join_missing_room_field (fun _ => true) w1.server 1).2.1
      Payload.empty rfl
  · exact (c9_join_missing_room_field (fun _ => true) w1.server 1).2.2
      ⟨some "", none, none, false⟩ rfl

/-- C10: a `message` event from a connection registered in an existing
room whose payload is absent, or whose `id` or `text` is absent or empty,
produces no outbound envelope at all — no broadcast, no `delivered`, no
error — and leaves the state unchanged. -/
theorem c10_message_invalid_payload_silent (isOpen : Conn → Bool)
    (st : ServerState) (socket : Conn) (fid : RoomId) (r : RoomId)
    (ms : List Conn) (hu : mapGet st.users socket = some r)
    (hm : mapGet st.rooms r = some ms) :
    handleMessage isOpen st socket fid
      (ClientMsg.obj (some "message") none) = Except.ok (st, []) ∧
    (∀ p : Payload, truthy p.id = false ∨ truthy p.text = false →
      handleMessage isOpen st socket fid
        (ClientMsg.obj (some "message") (some p)) = Except.ok (st, [])) := by
  constructor
  · simp only [handleMessage]
    simp only [hu, hm]
    simp [truthy, Payload.empty]
  · intro p hp
    simp only [handleMessage]
    simp only [hu, hm]
    simp only [Option.getD_some]
    rw [if_neg (by decide), if_neg (by decide), if_neg (by decide),
      if_pos trivial, if_pos hp]

/-- Witness for C10: a message with an empty `text` from the sole member
of `w1`'s room yields no envelope. -/
theorem c10_message_invalid_payload_silent_witness :
    mapGet w1.server.users (0 : Conn) = some "1000" ∧
    mapGet w1.server.rooms "1000" = some [(0 : Conn)] ∧
    (truthy (⟨none, some "m1", some "", false⟩ : Payload).id = false ∨
      truthy (⟨none, some "m1", some "", false⟩ : Payload).text = false) ∧
    handleMessage (fun _ => true) w1.server 0 "9999"
      (ClientMsg.obj (some "message")
        (some ⟨none, some "m1", some "", false⟩)) =
      Except.ok (w1.server, []) := by
  refine ⟨by decide, by decide, by decide, ?_⟩
  exact (c10_message_invalid_payload_silent (fun _ => true) w1.server 0
    "9999" "1000" [0] (by decide) (by decide)).2
    ⟨none, some "m1", some "", false⟩ (by decide)

end IncognitoChat
